import Mathlib

/-!
Verification of the formatter core of this repository (an early prettier
snapshot): the JavaScript printer (`src/printer.js`), the handlebars
printer (`src/printer-handlebars.js`) and the handlebars parser shim.

The document IR (pp.js / doc-builders.js) is not part of the sources, so
its constructors are modelled from the specification (§3 of the spec):
an immutable tree of text, concatenation, line kinds, indentation and
groups.  All translation logic is embedded from the sources.
-/

namespace Prettier

/-- Modelled from the spec: the pp.js document IR used by src/printer.js
(§3 of the spec).  pp.js itself is not under src/.  `indent` carries the
extra width, `multilineGroup` is the exclusive group. -/
inductive Doc where
  | text (s : String)
  | concat (ds : List Doc)
  | line
  | softline
  | hardline
  | literalline
  | group (d : Doc)
  | multilineGroup (d : Doc)
  | indent (width : Nat) (d : Doc)

/-- Modelled from the spec: pp.js `join(separator, parts)` interleaves the
separator between adjacent parts and concatenates. -/
def join (sep : Doc) (ds : List Doc) : Doc :=
  Doc.concat (List.intersperse sep ds)

/-- Modelled from the spec: pp.js `getFirstString(doc)` — the first text
atom of a document in document order (§4.3: "that argument's document
begins with `\x7b`"). -/
def getFirstString : Doc → Option String
  | .text s => some s
  | .concat [] => none
  | .concat (d :: ds) =>
    match getFirstString d with
    | some s => some s
    | none => getFirstString (.concat ds)
  | .line => none
  | .softline => none
  | .hardline => none
  | .literalline => none
  | .group d => getFirstString d
  | .multilineGroup d => getFirstString d
  | .indent _ d => getFirstString d

/-- The last text atom of a document in document order; used to observe
whether a printed statement ends with a token such as `;`. -/
def getLastString : Doc → Option String
  | .text s => some s
  | .concat [] => none
  | .concat (d :: ds) =>
    match getLastString (.concat ds) with
    | some s => some s
    | none => getLastString d
  | .line => none
  | .softline => none
  | .hardline => none
  | .literalline => none
  | .group d => getLastString d
  | .multilineGroup d => getLastString d
  | .indent _ d => getLastString d

/-- Quote option recognised by src/printer.js `nodeStr` (lines 1907-1919). -/
inductive QuoteOption where
  | auto
  | single
  | double
deriving DecidableEq, Repr

/-- The configuration fields of options.js that src/printer.js reads.
options.js is not under src/; the fields and defaults are taken from the
spec (§6). -/
structure Options where
  quote : QuoteOption := QuoteOption.auto
  tabWidth : Nat := 2
  objectCurlySpacing : Bool := false
deriving DecidableEq, Repr

/-- Hex digit used by the `\uXXXX` escapes of JSON.stringify. -/
def toHexDigit (n : Nat) : Char :=
  if n < 10 then Char.ofNat (48 + n) else Char.ofNat (87 + n)

/-- The escape JSON.stringify applies to one character of a string body
(ECMA-262 QuoteJSONString): `"` and `\` are backslash-escaped, the short
control escapes are used for U+0008..U+000D, any other control character
becomes `\u00XX`, and every other character is emitted verbatim. -/
def escapeChar (c : Char) : List Char :=
  if c = '"' then ['\\', '"']
  else if c = '\\' then ['\\', '\\']
  else if c = '\x08' then ['\\', 'b']
  else if c = '\x09' then ['\\', 't']
  else if c = '\x0a' then ['\\', 'n']
  else if c = '\x0c' then ['\\', 'f']
  else if c = '\x0d' then ['\\', 'r']
  else if c.toNat < 32 then
    ['\\', 'u', '0', '0', toHexDigit (c.toNat / 16), toHexDigit (c.toNat % 16)]
  else [c]

/-- JSON.stringify on a string value, over its character list: the double
quote, each character escaped, the closing double quote. -/
def jsonStringify (cs : List Char) : List Char :=
  '"' :: ((cs.map escapeChar).flatten ++ ['"'])

/-- src/printer.js lines 1901-1905 `swapQuotes`: replace every `'` by `"`
and every `"` by `'`. -/
def swapQuoteChar (c : Char) : Char :=
  if c = '"' then '\'' else if c = '\'' then '"' else c

/-- src/printer.js `swapQuotes` lifted to the whole string. -/
def swapQuotes (cs : List Char) : List Char :=
  cs.map swapQuoteChar

/-- src/printer.js lines 1907-1919 `nodeStr(str, options)`: under `auto`
build the double-quoted rendering with JSON.stringify and the
single-quoted rendering by swapping quotes, stringifying and swapping
back, then pick the single rendering exactly when the double one is
strictly longer; `single`/`double` force the respective rendering. -/
def nodeStr (str : List Char) (options : Options) : List Char :=
  match options.quote with
  | QuoteOption.auto =>
    let double := jsonStringify str
    let single := swapQuotes (jsonStringify (swapQuotes str))
    if double.length > single.length then single else double
  | QuoteOption.single => swapQuotes (jsonStringify (swapQuotes str))
  | QuoteOption.double => jsonStringify str

/-! ## The handlebars dialect printer (src/printer-handlebars.js) -/

/-- Modelled from the spec: the doc-builders.js document IR used by
src/printer-handlebars.js (§3 of the spec).  doc-builders.js is not
under src/; its `indent` takes no width argument. -/
inductive HbDoc where
  | text (s : String)
  | concat (ds : List HbDoc)
  | line
  | softline
  | hardline
  | group (d : HbDoc)
  | indent (d : HbDoc)

/-- Modelled from the spec: doc-builders.js `join(separator, parts)`. -/
def hbJoin (sep : HbDoc) (ds : List HbDoc) : HbDoc :=
  HbDoc.concat (List.intersperse sep ds)

/-- Does a document contain a text atom equal to `target`?  Used to
observe whether a rendering carries a closing-tag token. -/
def hbDocHasText (target : String) : HbDoc → Bool
  | .text s => s = target
  | .concat [] => false
  | .concat (d :: ds) => hbDocHasText target d || hbDocHasText target (.concat ds)
  | .line => false
  | .softline => false
  | .hardline => false
  | .group d => hbDocHasText target d
  | .indent d => hbDocHasText target d

/-- `sub` starts the list `l` (character-wise prefix test). -/
def listStartsWith : List Char → List Char → Bool
  | _, [] => true
  | [], _ :: _ => false
  | c :: cs, d :: ds => c = d && listStartsWith cs ds

/-- Substring containment on character lists. -/
def listContainsSub : List Char → List Char → Bool
  | [], sub => sub.isEmpty
  | c :: rest, sub => listStartsWith (c :: rest) sub || listContainsSub rest sub

/-- JavaScript `s.includes(target)`. -/
def jsIncludes (s target : String) : Bool :=
  listContainsSub s.data target.data

/-- Drop leading whitespace characters. -/
def dropLeadingWs : List Char → List Char
  | [] => []
  | c :: cs => if c.isWhitespace then dropLeadingWs cs else c :: cs

/-- JavaScript `s.trim()`: strip whitespace from both ends (structural,
so that concrete instances evaluate inside the kernel). -/
def jsTrim (s : String) : String :=
  String.mk ((dropLeadingWs ((dropLeadingWs s.data).reverse)).reverse)

/-- One pass of JavaScript `chars.replace(/\s+/g, " ")`: each maximal
run of whitespace becomes a single space.  The flag records whether the
previous character was whitespace. -/
def collapseWsGo : Bool → List Char → List Char
  | _, [] => []
  | prevWs, c :: cs =>
    if c.isWhitespace then
      (if prevWs then collapseWsGo true cs else ' ' :: collapseWsGo true cs)
    else c :: collapseWsGo false cs

/-- src/printer-handlebars.js line 81: `n.chars.replace(/\s+/g, " ").trim()`. -/
def collapseAndTrim (s : String) : String :=
  jsTrim (String.mk (collapseWsGo false s.data))

/-- src/printer-handlebars.js lines 15-30 `voidTags`: the keys of the
void-tag table. -/
def voidTags : List String :=
  ["area", "base", "br", "col", "embed", "hr", "img", "input",
   "link", "meta", "param", "source", "track", "wbr"]

/-- The handlebars AST nodes distinguished by src/printer-handlebars.js.
Each constructor carries exactly the fields the printer reads: an
element node is read through both `name` (the void-tag lookup) and
`tag` (the emitted tag text); a text node carries its `chars` and the
`loc` endpoints compared in the AttrNode rule; `otherNode` stands for a
node of any kind that has no rule, carrying its `type` string. -/
inductive HbNode where
  | program (body : List HbNode)
  | attrNode (name : String) (value : HbNode)
  | elementNode (name : String) (tag : String)
      (attributes : List HbNode) (children : List HbNode)
  | textNode (chars : String)
      (startLine startColumn endLine endColumn : Nat)
  | mustacheStatement (path : HbNode)
  | mustacheCommentStatement (value : String)
  | pathExpression (parts : List String)
  | otherNode (type : String)

/-- The `type` discriminant of a handlebars node. -/
def hbTypeOf : HbNode → String
  | .program _ => "Program"
  | .attrNode _ _ => "AttrNode"
  | .elementNode _ _ _ _ => "ElementNode"
  | .textNode _ _ _ _ _ => "TextNode"
  | .mustacheStatement _ => "MustacheStatement"
  | .mustacheCommentStatement _ => "MustacheCommentStatement"
  | .pathExpression _ => "PathExpression"
  | .otherNode t => t

/-- src/printer-handlebars.js lines 107-114 `printAttributes`, over the
already printed attribute documents: a leading space when the attribute
list is nonempty, then the line-joined attributes under an indent. -/
def printAttributes (printed : List HbDoc) : HbDoc :=
  HbDoc.concat [
    HbDoc.text (if printed.length ≠ 0 then " " else ""),
    HbDoc.indent (hbJoin HbDoc.line printed)]

mutual

/-- src/printer-handlebars.js lines 32-105 `printPath`: the dialect
translator, dispatching on the node type.  `path.call`/`path.map`
recursion is embedded as direct recursion on the node tree; a thrown
`Error` is an `Except.error` carrying the message. -/
def printPath : HbNode → Except String HbDoc
  | HbNode.program body => do
    pure (HbDoc.concat (← printPathList body))
  | HbNode.attrNode name value =>
    match value with
    | HbNode.textNode chars startLine startColumn endLine endColumn =>
      if startLine = endLine ∧ startColumn = endColumn then
        pure (HbDoc.text name)
      else
        pure (HbDoc.concat [HbDoc.text name, HbDoc.text "=\"",
          HbDoc.text chars, HbDoc.text "\""])
    | _ =>
      Except.error ("unsupported handlebars attribute type: " ++ hbTypeOf value)
  | HbNode.elementNode name tag attributes children => do
    let selfClose := if voidTags.contains name then ">" else " />"
    let childrenDoc := HbDoc.concat (← printPathList children)
    let attrsDoc := printAttributes (← printPathList attributes)
    pure (HbDoc.group (HbDoc.concat [
      HbDoc.text "<",
      HbDoc.text tag,
      attrsDoc,
      HbDoc.text (if children.length ≠ 0 then ">" else selfClose),
      HbDoc.indent childrenDoc,
      if children.length ≠ 0 then
        HbDoc.concat [HbDoc.softline, HbDoc.text "</", HbDoc.text tag, HbDoc.text ">"]
      else HbDoc.hardline]))
  | HbNode.textNode chars _ _ _ _ =>
    pure (HbDoc.text (collapseAndTrim chars))
  | HbNode.mustacheStatement path => do
    pure (HbDoc.group (HbDoc.concat [HbDoc.text "\x7b\x7b",
      ← printPath path, HbDoc.text "\x7d\x7d"]))
  | HbNode.mustacheCommentStatement value =>
    let text := jsTrim value
    let hasBraces := jsIncludes text "\x7b\x7b" || jsIncludes text "\x7d\x7d"
    let openDelim := if hasBraces then "\x7b\x7b!--" else "\x7b\x7b!"
    let closeDelim := if hasBraces then "--\x7d\x7d" else "\x7d\x7d"
    pure (HbDoc.group (HbDoc.concat [HbDoc.text openDelim, HbDoc.line,
      HbDoc.text text, HbDoc.line, HbDoc.text closeDelim]))
  | HbNode.pathExpression parts =>
    pure (hbJoin (HbDoc.text ".") (parts.map HbDoc.text))
  | HbNode.otherNode t =>
    Except.error ("unsupported handlebars type: " ++ t)

/-- `printChildren`/`path.map` over a list of child nodes (lines
116-122 of src/printer-handlebars.js): print each child in order,
propagating the first error. -/
def printPathList : List HbNode → Except String (List HbDoc)
  | [] => pure []
  | n :: ns => do
    pure ((← printPath n) :: (← printPathList ns))

end

/-! ## The node-kind dispatch of the JavaScript translator -/

/-- Node kinds with a translation rule in the `switch` of
`genericPrintNoParens` (src/printer.js lines 228-1591): every case label
whose body builds and returns a document (including `ModuleSpecifier`,
whose rule throws only for the abstract ESTree form). -/
def jsPrintableTypes : List String :=
  ["File", "Program", "Noop", "EmptyStatement", "ExpressionStatement",
   "ParenthesizedExpression", "AssignmentExpression", "BinaryExpression",
   "LogicalExpression", "AssignmentPattern", "MemberExpression",
   "MetaProperty", "BindExpression", "Path", "Identifier", "SpreadElement",
   "SpreadElementPattern", "RestProperty", "SpreadProperty",
   "SpreadPropertyPattern", "RestElement", "FunctionDeclaration",
   "FunctionExpression", "ArrowFunctionExpression", "MethodDefinition",
   "YieldExpression", "AwaitExpression", "ModuleDeclaration",
   "ImportSpecifier", "ExportSpecifier", "ExportBatchSpecifier",
   "ImportNamespaceSpecifier", "ImportDefaultSpecifier",
   "ExportDeclaration", "ExportDefaultDeclaration", "ExportNamedDeclaration",
   "ExportAllDeclaration", "ExportNamespaceSpecifier", "ExportDefaultSpecifier",
   "ImportDeclaration", "BlockStatement", "ReturnStatement", "CallExpression",
   "ObjectExpression", "ObjectPattern", "ObjectTypeAnnotation",
   "PropertyPattern", "ObjectProperty", "Property", "ClassMethod",
   "ObjectMethod", "Decorator", "ArrayExpression", "ArrayPattern",
   "SequenceExpression", "ThisExpression", "Super", "NullLiteral",
   "RegExpLiteral", "BooleanLiteral", "NumericLiteral", "StringLiteral",
   "Literal", "Directive", "DirectiveLiteral", "ModuleSpecifier",
   "UnaryExpression", "UpdateExpression", "ConditionalExpression",
   "NewExpression", "VariableDeclaration", "VariableDeclarator",
   "WithStatement", "IfStatement", "ForStatement", "WhileStatement",
   "ForInStatement", "ForOfStatement", "ForAwaitStatement",
   "DoWhileStatement", "DoExpression", "BreakStatement", "ContinueStatement",
   "LabeledStatement", "TryStatement", "CatchClause", "ThrowStatement",
   "SwitchStatement", "SwitchCase", "DebuggerStatement", "JSXAttribute",
   "JSXIdentifier", "JSXNamespacedName", "JSXMemberExpression",
   "JSXSpreadAttribute", "JSXExpressionContainer", "JSXElement",
   "JSXOpeningElement", "JSXClosingElement", "JSXText", "JSXEmptyExpression",
   "TypeAnnotatedIdentifier", "ClassBody", "ClassPropertyDefinition",
   "ClassProperty", "ClassDeclaration", "ClassExpression", "TemplateElement",
   "TemplateLiteral", "TaggedTemplateExpression", "CommentBlock", "Block",
   "CommentLine", "Line", "TypeAnnotation", "TupleTypeAnnotation",
   "ExistentialTypeParam", "ExistsTypeAnnotation", "EmptyTypeAnnotation",
   "AnyTypeAnnotation", "MixedTypeAnnotation", "ArrayTypeAnnotation",
   "BooleanTypeAnnotation", "NumericLiteralTypeAnnotation",
   "BooleanLiteralTypeAnnotation", "DeclareClass", "DeclareFunction",
   "DeclareModule", "DeclareModuleExports", "DeclareVariable",
   "DeclareExportAllDeclaration", "DeclareExportDeclaration",
   "FunctionTypeAnnotation", "FunctionTypeParam", "GenericTypeAnnotation",
   "DeclareInterface", "InterfaceDeclaration", "ClassImplements",
   "InterfaceExtends", "IntersectionTypeAnnotation", "NullableTypeAnnotation",
   "NullLiteralTypeAnnotation", "ThisTypeAnnotation", "NumberTypeAnnotation",
   "ObjectTypeCallProperty", "ObjectTypeIndexer", "ObjectTypeProperty",
   "QualifiedTypeIdentifier", "StringLiteralTypeAnnotation",
   "NumberLiteralTypeAnnotation", "StringTypeAnnotation", "DeclareTypeAlias",
   "TypeAlias", "TypeCastExpression", "TypeParameterDeclaration",
   "TypeParameterInstantiation", "TypeParameter", "TypeofTypeAnnotation",
   "UnionTypeAnnotation", "VoidTypeAnnotation", "NullTypeAnnotation",
   "InferredPredicate", "DeclaredPredicate"]

/-- Node kinds that are abstract supertypes: their case labels share a
`throw new Error("unprintable type: " + ...)` body (src/printer.js lines
1215-1229). -/
def jsUnprintableTypes : List String :=
  ["Node", "Printable", "SourceLocation", "Position", "Statement",
   "Function", "Pattern", "Expression", "Declaration", "Specifier",
   "NamedSpecifier", "Comment", "MemberTypeAnnotation", "Type"]

/-- The node kinds src/printer-handlebars.js has a rule for (the case
labels of its `switch`). -/
def hbHandledTypes : List String :=
  ["Program", "AttrNode", "ElementNode", "TextNode",
   "MustacheStatement", "MustacheCommentStatement", "PathExpression"]

/-- The control flow of the `switch` dispatch in `genericPrintNoParens`
(src/printer.js lines 228-1591) as a function of the node's `type`
string.  The per-kind document construction is elided (`Unit` stands
for the document a rule returns); the error branches are verbatim:
supertype labels throw `unprintable type` and the `default` label
throws `unknown type` with the JSON-stringified kind, which the
TODO/XML labels of lines 1558-1587 fall through to. -/
def genericPrintNoParensDispatch (t : String) : Except String Unit :=
  if jsPrintableTypes.contains t then Except.ok ()
  else if jsUnprintableTypes.contains t then
    Except.error ("unprintable type: " ++ String.mk (jsonStringify t.data))
  else Except.error ("unknown type: " ++ String.mk (jsonStringify t.data))

/-! ## Call arguments, variable declarations, object literals -/

/-- src/printer.js lines 1692-1719 `printArgumentsList`, over the printed
argument documents (`printed = path.map(print, "arguments")`): no
arguments yield empty parens; a single argument whose document's first
string is `\x7b` sits directly between the parens; otherwise the
arguments are soft-indented, comma-plus-line-joined with a trailing
softline, all inside the exclusive group.  (The `trailingComma` local of
line 1694 is computed but never used and is omitted.) -/
def printArgumentsList (options : Options) (printed : List Doc) : Doc :=
  let broken : Doc := Doc.concat [
    Doc.indent options.tabWidth (Doc.concat [Doc.softline,
      join (Doc.concat [Doc.text ",", Doc.line]) printed]),
    Doc.softline]
  let args : Doc :=
    match printed with
    | [] => Doc.text ""
    | [arg0] => if getFirstString arg0 = some "\x7b" then arg0 else broken
    | _ => broken
  Doc.multilineGroup (Doc.concat [Doc.text "(", args, Doc.text ")"])

/-- src/printer.js lines 792-817, the `VariableDeclaration` rule, over
the printed declarator documents: the kind keyword, a space, the first
declarator (`printed[0]`; the declarations list of a well-formed
declaration is nonempty), the remaining declarators indented behind
`,` + line, and a closing `;` unless the parent node is one of the four
`for`-family statements.  `parentType` is the `type` of
`path.getParentNode()` (`none` when there is no parent). -/
def printVariableDeclaration (options : Options) (kind : String)
    (parentType : Option String) (printed : List Doc) : Doc :=
  let parts : List Doc := [
    Doc.text kind,
    Doc.text " ",
    printed.headD (Doc.text ""),
    Doc.indent options.tabWidth
      (Doc.concat ((printed.drop 1).map fun p => Doc.concat [Doc.text ",", Doc.line, p]))]
  let parts :=
    if parentType = some "ForStatement" ∨ parentType = some "ForInStatement"
        ∨ parentType = some "ForOfStatement" ∨ parentType = some "ForAwaitStatement"
    then parts
    else parts ++ [Doc.text ";"]
  Doc.multilineGroup (Doc.concat parts)

/-- src/printer.js lines 617-656, the shared
`ObjectExpression`/`ObjectPattern`/`ObjectTypeAnnotation` rule, over the
printed member documents: for a type annotation the members are the
indexers, then the call properties, then the properties, each wrapped in
a group; the separator is `;` for type annotations and `,` otherwise;
exact objects use `\x7b|`/`|\x7d` braces.  Zero members return the
literal string `\x7b\x7d`; otherwise the members are joined inside the
exclusive group with the printed `typeAnn` document appended
(`path.call(print, "typeAnn")` prints the empty string when the
field is absent). -/
def printObjectCase (options : Options) (type : String) (exact : Bool)
    (indexers callProperties properties : List Doc)
    (typeAnn : Option Doc) : Doc :=
  let isTypeAnnot := type = "ObjectTypeAnnotation"
  let separator := if isTypeAnnot then ";" else ","
  let leftBrace := if exact then "\x7b|" else "\x7b"
  let rightBrace := if exact then "|\x7d" else "\x7d"
  let props := ((if isTypeAnnot then indexers ++ callProperties else [])
      ++ properties).map Doc.group
  if props.length = 0 then Doc.text "\x7b\x7d"
  else Doc.multilineGroup (Doc.concat [
    Doc.text leftBrace,
    Doc.indent options.tabWidth (Doc.concat [Doc.line,
      join (Doc.concat [Doc.text separator, Doc.line]) props]),
    Doc.line,
    Doc.text rightBrace,
    typeAnn.getD (Doc.text "")])

/-! ## The printMethod node mutation -/

/-- Values a method-like node's `value` field can hold, as far as
`printMethod` observes them: absent, a `FunctionExpression` child, a
reference to the node itself (the result of `node.value = node`), or a
child node of some other kind. -/
inductive MethodValueField where
  | undefinedField
  | functionExpressionField
  | selfReference
  | otherField (typeName : String)
deriving DecidableEq, Repr

/-- The fields of a method-like node read or written by `printMethod`
(src/printer.js lines 1647-1656). -/
structure MethodNode where
  type : String
  kind : Option String
  computed : Bool
  value : MethodValueField
deriving DecidableEq, Repr

/-- The AST-node state transition performed by `printMethod`
(src/printer.js lines 1647-1656): for an `ObjectMethod` or `ClassMethod`
node it executes `node.value = node` (line 1653), assigning the node
itself to the node's own `value` field; for every other node kind it
asserts `node.value` is a `FunctionExpression` and leaves the node
unchanged.  The document `printMethod` then builds does not touch any
further node field and is not modelled here. -/
def printMethodNodeEffect (node : MethodNode) : Except String MethodNode :=
  if node.type = "ObjectMethod" ∨ node.type = "ClassMethod" then
    Except.ok { node with value := MethodValueField.selfReference }
  else
    match node.value with
    | MethodValueField.functionExpressionField => Except.ok node
    | _ => Except.error "namedTypes.FunctionExpression.assert(node.value)"

/-! ## The falsy-AST guard of Printer.print -/

/-- JavaScript values as they can be passed for the `ast` argument of
`Printer.prototype.print`; truthiness follows JavaScript. -/
inductive JsValue where
  | nullValue
  | undefinedValue
  | boolValue (b : Bool)
  | numValue (n : Int)
  | strValue (s : String)
  | astNode (type : String)
deriving DecidableEq, Repr

/-- JavaScript truthiness of a `JsValue`. -/
def truthy : JsValue → Bool
  | JsValue.nullValue => false
  | JsValue.undefinedValue => false
  | JsValue.boolValue b => b
  | JsValue.numValue n => decide (n ≠ 0)
  | JsValue.strValue s => decide (s ≠ "")
  | JsValue.astNode _ => true

/-- Opaque handle for a composed source map (produced by the external
source-map library). -/
structure SourceMapHandle where
  handleId : Nat
deriving DecidableEq, Repr

/-- src/printer.js lines 26-36 `PrintResult`: the formatted code and the
optional source map; the constructor sets `this.map` only when a truthy
source-map argument is supplied. -/
structure PrintResult where
  code : String
  map : Option SourceMapHandle
deriving DecidableEq, Repr

/-- src/printer.js line 55: `var emptyPrintResult = new PrintResult("")`
— empty code, no map field assigned. -/
def emptyPrintResult : PrintResult := { code := "", map := none }

namespace Printer

/-- The guard of `Printer.prototype.print` (src/printer.js lines
114-131): a falsy `ast` argument returns `emptyPrintResult` at once;
otherwise the full printing pipeline runs — rendering and source-map
composition live in the out-of-src pp.js/util.js and are abstracted as
the `rest` continuation. -/
def print (rest : JsValue → Except String PrintResult) (ast : JsValue) :
    Except String PrintResult :=
  if truthy ast = false then Except.ok emptyPrintResult else rest ast

/-- The guard of `Printer.prototype.printGenerically` (src/printer.js
lines 133-150), identical in shape to the `print` guard. -/
def printGenerically (rest : JsValue → Except String PrintResult) (ast : JsValue) :
    Except String PrintResult :=
  if truthy ast = false then Except.ok emptyPrintResult else rest ast

end Printer

/-! ## The ImportDeclaration specifier loop -/

/-- The specifier kinds the `ImportDeclaration` rule distinguishes via
`namedTypes` checks: default import, namespace import, named import, or
a node of any other kind (which fails the `ImportSpecifier` assert). -/
inductive ImportSpecifierKind where
  | defaultSpecifier
  | namespaceSpecifier
  | namedSpecifier
  | otherSpecifier (typeName : String)
deriving DecidableEq, Repr

/-- One entry of `n.specifiers` as the rule consumes it: its kind and
its printed document. -/
structure ImportSpec where
  kind : ImportSpecifierKind
  doc : Doc

/-- Is the specifier kind a default or namespace import? -/
def isDefaultOrNamespace : ImportSpecifierKind → Bool
  | ImportSpecifierKind.defaultSpecifier => true
  | ImportSpecifierKind.namespaceSpecifier => true
  | ImportSpecifierKind.namedSpecifier => false
  | ImportSpecifierKind.otherSpecifier _ => false

/-- The `path.each` loop over `n.specifiers` of the `ImportDeclaration`
rule (src/printer.js lines 525-549): `i` is the specifier index (a
`", "` separator precedes every specifier but the first), `found` is the
`foundImportSpecifier` flag, `parts` the accumulated documents.  A
default/namespace specifier asserts the flag is still false; the first
named specifier sets the flag and opens the brace; any other specifier
kind fails the `ImportSpecifier` assert. -/
def importSpecLoop (options : Options) :
    List ImportSpec → Nat → Bool → List Doc → Except String (Bool × List Doc)
  | [], _, found, parts => Except.ok (found, parts)
  | s :: rest, i, found, parts =>
    let parts := if i > 0 then parts ++ [Doc.text ", "] else parts
    match s.kind with
    | ImportSpecifierKind.defaultSpecifier =>
      if found then Except.error "assert.strictEqual(foundImportSpecifier, false)"
      else importSpecLoop options rest (i + 1) found (parts ++ [s.doc])
    | ImportSpecifierKind.namespaceSpecifier =>
      if found then Except.error "assert.strictEqual(foundImportSpecifier, false)"
      else importSpecLoop options rest (i + 1) found (parts ++ [s.doc])
    | ImportSpecifierKind.namedSpecifier =>
      if found then importSpecLoop options rest (i + 1) found (parts ++ [s.doc])
      else importSpecLoop options rest (i + 1) true
        (parts ++ [Doc.text (if options.objectCurlySpacing then "\x7b " else "\x7b"), s.doc])
    | ImportSpecifierKind.otherSpecifier _ =>
      Except.error "namedTypes.ImportSpecifier.assert(value)"

/-- src/printer.js lines 515-562, the `ImportDeclaration` rule: the
`import ` keyword, the import kind when truthy and different from
`value`, then — when the specifier list is nonempty — the specifier
loop, the closing brace when a named specifier was found, and ` from `;
finally the printed source and `;`. -/
def printImportDeclaration (options : Options) (importKind : Option String)
    (specifiers : List ImportSpec) (sourceDoc : Doc) : Except String Doc := do
  let parts : List Doc := [Doc.text "import "]
  let parts := match importKind with
    | some k => if k ≠ "" ∧ k ≠ "value" then parts ++ [Doc.text (k ++ " ")] else parts
    | none => parts
  if specifiers.length > 0 then
    let fp ← importSpecLoop options specifiers 0 false parts
    let parts2 := if fp.1 then
        fp.2 ++ [Doc.text (if options.objectCurlySpacing then " \x7d" else "\x7d")]
      else fp.2
    let parts2 := parts2 ++ [Doc.text " from "]
    pure (Doc.concat (parts2 ++ [sourceDoc, Doc.text ";"]))
  else
    pure (Doc.concat (parts ++ [sourceDoc, Doc.text ";"]))

/-- Comma-separated chain used to state the expected specifier layout:
the first document bare, every later one preceded by a `", "` text. -/
def commaChain (docs : List Doc) : List Doc :=
  match docs with
  | [] => []
  | d :: rest => d :: (rest.map fun x => [Doc.text ", ", x]).flatten

/-- Claim-side closed form of a printed import declaration whose
default/namespace specifiers (`defs`) all precede its named specifiers
(`nameds`): the defaults first, then the named specifiers wrapped in
exactly one brace pair, then ` from `, the source and `;`. -/
def importDeclExpected (options : Options) (importKind : Option String)
    (defs nameds : List Doc) (sourceDoc : Doc) : Doc :=
  let kindParts : List Doc := match importKind with
    | some k => if k ≠ "" ∧ k ≠ "value" then [Doc.text (k ++ " ")] else []
    | none => []
  let braceGroup : List Doc :=
    if nameds.isEmpty then []
    else (if defs.isEmpty then [] else [Doc.text ", "])
      ++ [Doc.text (if options.objectCurlySpacing then "\x7b " else "\x7b")]
      ++ commaChain nameds
      ++ [Doc.text (if options.objectCurlySpacing then " \x7d" else "\x7d")]
  if defs.isEmpty ∧ nameds.isEmpty then
    Doc.concat ([Doc.text "import "] ++ kindParts ++ [sourceDoc, Doc.text ";"])
  else
    Doc.concat ([Doc.text "import "] ++ kindParts ++ commaChain defs ++ braceGroup
      ++ [Doc.text " from ", sourceDoc, Doc.text ";"])

/-- A named specifier occurs somewhere before a default or namespace
specifier in the list (the pattern claim C9 says must abort). -/
def hasNamedBeforeDefault : List ImportSpec → Bool
  | [] => false
  | s :: rest =>
    match s.kind with
    | ImportSpecifierKind.namedSpecifier =>
      (rest.any fun r => isDefaultOrNamespace r.kind) || hasNamedBeforeDefault rest
    | _ => hasNamedBeforeDefault rest

/-- Is the result of a fallible computation a success? -/
def exceptIsOk {a : Type} : Except String a → Bool
  | Except.ok _ => true
  | Except.error _ => false

/-- Tail of a comma-separated chain: every document preceded by `", "`. -/
def commaTail (docs : List Doc) : List Doc :=
  (docs.map fun x => [Doc.text ", ", x]).flatten

/-- Comma chain as the specifier loop lays it out when entered at index
`i`: at index 0 the first document is bare, at a later index every
document is preceded by a separator. -/
def chainFrom (i : Nat) (docs : List Doc) : List Doc :=
  if i = 0 then commaChain docs else commaTail docs

/-! ## Theorems -/

lemma exceptPure_eq_ok {a : Type} (x : a) :
    (pure x : Except String a) = Except.ok x := rfl

lemma exceptBind_ok {a b : Type} (x : a) (f : a → Except String b) :
    (Except.ok x >>= f : Except String b) = f x := rfl

lemma exceptMap_ok {a b : Type} (f : a → b) (x : a) :
    Except.map f (Except.ok x : Except String a) = Except.ok (f x) := rfl

example : nodeStr "a'b".data { quote := QuoteOption.auto } = "\"a'b\"".data := by decide
example : nodeStr "a\"b".data { quote := QuoteOption.auto } = "'a\"b'".data := by decide
example : nodeStr "'\"".data { quote := QuoteOption.auto } = "\"'\\\"\"".data := by decide

/-- Escaping the quote-swapped body versus escaping the body itself:
the length difference is exactly the difference between the number of
double quotes and the number of single quotes in the body. -/
lemma escLen_swap (cs : List Char) :
    ((swapQuotes cs).map escapeChar).flatten.length + cs.count '"'
      = ((cs.map escapeChar).flatten).length + cs.count '\'' := by
  induction cs with
  | nil => rfl
  | cons c cs ih =>
    have hs : swapQuotes (c :: cs) = swapQuoteChar c :: swapQuotes cs := rfl
    rw [hs]
    simp only [List.map_cons, List.flatten_cons, List.length_append]
    rcases eq_or_ne c '"' with hq | hq
    · subst hq
      have e1 : (escapeChar (swapQuoteChar '"')).length = 1 := by decide
      have e2 : (escapeChar '"').length = 2 := by decide
      rw [e1, e2, List.count_cons_self, List.count_cons_of_ne (by decide)]
      omega
    · rcases eq_or_ne c '\'' with hp | hp
      · subst hp
        have e1 : (escapeChar (swapQuoteChar '\'')).length = 2 := by decide
        have e2 : (escapeChar '\'').length = 1 := by decide
        rw [e1, e2, List.count_cons_self, List.count_cons_of_ne (by decide)]
        omega
      · have hsw : swapQuoteChar c = c := by simp [swapQuoteChar, hq, hp]
        rw [hsw, List.count_cons_of_ne (Ne.symm hq), List.count_cons_of_ne (Ne.symm hp)]
        omega

lemma jsonStringify_length (cs : List Char) :
    (jsonStringify cs).length = (cs.map escapeChar).flatten.length + 2 := by
  simp [jsonStringify]

lemma swapQuotes_length (cs : List Char) :
    (swapQuotes cs).length = cs.length := by
  simp [swapQuotes]

lemma jsonStringify_head (cs : List Char) :
    (jsonStringify cs).head? = some '"' := rfl

lemma swap_jsonStringify_head (cs : List Char) :
    (swapQuotes (jsonStringify cs)).head? = some '\'' := rfl

/-- C1: under quote configuration `auto`, `nodeStr` emits the single
quote as quote character exactly when the string body holds strictly
fewer single quotes than double quotes (so the single-quoted rendering
is strictly shorter); on a tie (and whenever double quotes do not
strictly outnumber single quotes) the double quote is emitted. -/
theorem nodeStr_auto_quote_choice (str : List Char) :
    ((nodeStr str { quote := QuoteOption.auto }).head? = some '\''
        ↔ str.count '\'' < str.count '"')
    ∧ ((nodeStr str { quote := QuoteOption.auto }).head? = some '"'
        ↔ str.count '"' ≤ str.count '\'') := by
  have key := escLen_swap str
  have hred : nodeStr str { quote := QuoteOption.auto }
      = if (jsonStringify str).length
            > (swapQuotes (jsonStringify (swapQuotes str))).length
        then swapQuotes (jsonStringify (swapQuotes str))
        else jsonStringify str := rfl
  have hlen : (jsonStringify str).length
        > (swapQuotes (jsonStringify (swapQuotes str))).length
      ↔ str.count '\'' < str.count '"' := by
    rw [swapQuotes_length, jsonStringify_length, jsonStringify_length]
    omega
  by_cases hc : str.count '\'' < str.count '"'
  · rw [hred, if_pos (hlen.mpr hc), swap_jsonStringify_head]
    constructor
    · simp [hc]
    · constructor
      · intro h
        exact absurd h (by decide)
      · omega
  · rw [hred, if_neg (fun h => hc (hlen.mp h)), jsonStringify_head]
    constructor
    · constructor
      · intro h
        exact absurd h (by decide)
      · omega
    · simp
      omega

/-- C2 counterexample: `printMethod` mutates an `ObjectMethod` AST node
during translation — after the call the node's `value` field holds the
node itself (`node.value = node`, src/printer.js line 1653) where before
the field was absent, so the node does not keep the field values it had
before the print. -/
theorem printMethod_mutates_objectMethod :
    printMethodNodeEffect
        { type := "ObjectMethod", kind := some "init", computed := false,
          value := MethodValueField.undefinedField }
      = Except.ok
          { type := "ObjectMethod", kind := some "init", computed := false,
            value := MethodValueField.selfReference }
    ∧ ({ type := "ObjectMethod", kind := some "init", computed := false,
         value := MethodValueField.selfReference } : MethodNode)
      ≠ { type := "ObjectMethod", kind := some "init", computed := false,
          value := MethodValueField.undefinedField } := by
  constructor
  · rfl
  · decide

/-- C2 amended: during translation the core mutates no AST node field,
except that `printMethod` assigns the node itself to the `value` field
of `ObjectMethod`/`ClassMethod` nodes; every node of any other kind
comes out of `printMethod` — the sole field-writing site of the
translator — with exactly the field values it had before. -/
theorem printMethod_preserves_other_kinds (node result : MethodNode)
    (h1 : node.type ≠ "ObjectMethod") (h2 : node.type ≠ "ClassMethod")
    (h : printMethodNodeEffect node = Except.ok result) : result = node := by
  unfold printMethodNodeEffect at h
  rw [if_neg (by rintro (hh | hh) <;> [exact h1 hh; exact h2 hh])] at h
  cases hv : node.value <;> rw [hv] at h <;> simp_all

/-- Witness for the amended C2 theorem: a `MethodDefinition` node with a
`FunctionExpression` value is returned unchanged. -/
theorem printMethod_preserves_other_kinds_witness :
    ("MethodDefinition" ≠ "ObjectMethod")
    ∧ ({ type := "MethodDefinition", kind := some "get", computed := false,
         value := MethodValueField.functionExpressionField } : MethodNode)
      = { type := "MethodDefinition", kind := some "get", computed := false,
          value := MethodValueField.functionExpressionField } :=
  ⟨by decide,
   printMethod_preserves_other_kinds
     { type := "MethodDefinition", kind := some "get", computed := false,
       value := MethodValueField.functionExpressionField }
     { type := "MethodDefinition", kind := some "get", computed := false,
       value := MethodValueField.functionExpressionField }
     (by decide) (by decide) rfl⟩

/-- C8: a falsy `ast` argument makes both `Printer.print` and
`Printer.printGenerically` return the shared `emptyPrintResult` — empty
code, no source map — without raising an error, whatever the rest of
the pipeline would do. -/
theorem print_falsy_ast_empty (rest : JsValue → Except String PrintResult)
    (ast : JsValue) (h : truthy ast = false) :
    Printer.print rest ast = Except.ok emptyPrintResult
    ∧ Printer.printGenerically rest ast = Except.ok emptyPrintResult
    ∧ emptyPrintResult.code = "" ∧ emptyPrintResult.map = none := by
  refine ⟨?_, ?_, rfl, rfl⟩ <;> simp [Printer.print, Printer.printGenerically, h]

/-- Witness for C8 at `ast = null`. -/
theorem print_falsy_ast_empty_witness :
    truthy JsValue.nullValue = false
    ∧ (Printer.print (fun _ => Except.ok emptyPrintResult) JsValue.nullValue
        = Except.ok emptyPrintResult
      ∧ Printer.printGenerically (fun _ => Except.ok emptyPrintResult) JsValue.nullValue
        = Except.ok emptyPrintResult
      ∧ emptyPrintResult.code = "" ∧ emptyPrintResult.map = none) :=
  ⟨rfl, print_falsy_ast_empty (fun _ => Except.ok emptyPrintResult) JsValue.nullValue rfl⟩

/-- C10: an object expression, object pattern or object type annotation
with zero printable members (no properties; for type annotations also no
indexers and no call properties) prints exactly the text `\x7b\x7d`,
whatever the `exact` flag and the `typeAnn` field hold. -/
theorem emptyObject_prints_braces (options : Options) (type : String) (exact : Bool)
    (indexers callProperties properties : List Doc) (typeAnn : Option Doc)
    (h : (if type = "ObjectTypeAnnotation" then indexers ++ callProperties else [])
          ++ properties = []) :
    printObjectCase options type exact indexers callProperties properties typeAnn
      = Doc.text "\x7b\x7d" := by
  simp only [printObjectCase]
  rw [h]
  rfl

/-- Witness for C10: an exact, annotated, memberless object type
annotation still prints `\x7b\x7d`. -/
theorem emptyObject_prints_braces_witness :
    ((if "ObjectTypeAnnotation" = "ObjectTypeAnnotation"
        then ([] : List Doc) ++ [] else []) ++ [] = [])
    ∧ printObjectCase {} "ObjectTypeAnnotation" true [] [] []
        (some (Doc.text ": T")) = Doc.text "\x7b\x7d" :=
  ⟨rfl, emptyObject_prints_braces {} "ObjectTypeAnnotation" true [] [] []
    (some (Doc.text ": T")) rfl⟩

/-- C5: the call-argument list prints as empty parens for zero
arguments; a single argument whose document begins with the string
`\x7b` sits directly between the parens with no softline wrapper;
otherwise the arguments are soft-indented, comma+line-joined with a
trailing softline — all inside the exclusive group. -/
theorem printArgumentsList_shape (options : Options) (printed : List Doc) :
    (printed = [] →
      printArgumentsList options printed
        = Doc.multilineGroup (Doc.concat [Doc.text "(", Doc.text "", Doc.text ")"]))
    ∧ (∀ arg0, printed = [arg0] → getFirstString arg0 = some "\x7b" →
      printArgumentsList options printed
        = Doc.multilineGroup (Doc.concat [Doc.text "(", arg0, Doc.text ")"]))
    ∧ ((∀ arg0, printed = [arg0] → ¬ getFirstString arg0 = some "\x7b") →
      printed ≠ [] →
      printArgumentsList options printed
        = Doc.multilineGroup (Doc.concat [Doc.text "(",
            Doc.concat [Doc.indent options.tabWidth (Doc.concat [Doc.softline,
              join (Doc.concat [Doc.text ",", Doc.line]) printed]), Doc.softline],
            Doc.text ")"])) := by
  refine ⟨?_, ?_, ?_⟩
  · rintro rfl
    rfl
  · rintro arg0 rfl hfirst
    simp [printArgumentsList, hfirst]
  · intro hno hne
    match printed with
    | [] => exact absurd rfl hne
    | [a] =>
      have ha := hno a rfl
      simp [printArgumentsList, ha]
    | a :: b :: rest => rfl

/-- Witness for C5 at the three argument shapes. -/
theorem printArgumentsList_shape_witness :
    printArgumentsList {} []
      = Doc.multilineGroup (Doc.concat [Doc.text "(", Doc.text "", Doc.text ")"])
    ∧ printArgumentsList {} [Doc.text "\x7b"]
      = Doc.multilineGroup (Doc.concat [Doc.text "(", Doc.text "\x7b", Doc.text ")"])
    ∧ printArgumentsList {} [Doc.text "a", Doc.text "b"]
      = Doc.multilineGroup (Doc.concat [Doc.text "(",
          Doc.concat [Doc.indent 2 (Doc.concat [Doc.softline,
            join (Doc.concat [Doc.text ",", Doc.line]) [Doc.text "a", Doc.text "b"]]),
            Doc.softline],
          Doc.text ")"]) :=
  ⟨(printArgumentsList_shape {} []).1 rfl,
   (printArgumentsList_shape {} [Doc.text "\x7b"]).2.1 (Doc.text "\x7b") rfl
     (by simp [getFirstString]),
   (printArgumentsList_shape {} [Doc.text "a", Doc.text "b"]).2.2
     (by intro arg0 h; simp at h) (by simp)⟩

/-- C6 counterexample: a declaration whose parent is a
`ForAwaitStatement` — not one of the `for`/`for-in`/`for-of` kinds the
claim lists — still has its `;` suppressed: the printed document ends
with the declarator text, not with `;`. -/
theorem forAwait_declaration_drops_semicolon :
    (["ForStatement", "ForInStatement", "ForOfStatement"].contains
        "ForAwaitStatement" = false)
    ∧ getLastString
        (printVariableDeclaration {} "let" (some "ForAwaitStatement") [Doc.text "x"])
      = some "x" := by
  refine ⟨by decide, ?_⟩
  simp [printVariableDeclaration, getLastString]

/-- C6 amended: the statement-terminating `;` is suppressed exactly when
the declaration's parent is a `for`, `for-in`, `for-of` or `for-await`
construct; in every other parent position the printed declaration ends
with the `;` text. -/
theorem variableDeclaration_semicolon (options : Options) (kind : String)
    (parentType : Option String) (printed : List Doc) :
    (¬ (parentType = some "ForStatement" ∨ parentType = some "ForInStatement"
        ∨ parentType = some "ForOfStatement" ∨ parentType = some "ForAwaitStatement") →
      printVariableDeclaration options kind parentType printed
        = Doc.multilineGroup (Doc.concat [Doc.text kind, Doc.text " ",
            printed.headD (Doc.text ""),
            Doc.indent options.tabWidth (Doc.concat ((printed.drop 1).map
              fun p => Doc.concat [Doc.text ",", Doc.line, p])),
            Doc.text ";"]))
    ∧ ((parentType = some "ForStatement" ∨ parentType = some "ForInStatement"
        ∨ parentType = some "ForOfStatement" ∨ parentType = some "ForAwaitStatement") →
      printVariableDeclaration options kind parentType printed
        = Doc.multilineGroup (Doc.concat [Doc.text kind, Doc.text " ",
            printed.headD (Doc.text ""),
            Doc.indent options.tabWidth (Doc.concat ((printed.drop 1).map
              fun p => Doc.concat [Doc.text ",", Doc.line, p]))])) := by
  constructor
  · intro h
    simp only [printVariableDeclaration]
    rw [if_neg h]
    rfl
  · intro h
    simp only [printVariableDeclaration]
    rw [if_pos h]

/-- Witness for the amended C6 theorem: no parent keeps the `;`, a
`ForStatement` parent drops it. -/
theorem variableDeclaration_semicolon_witness :
    printVariableDeclaration {} "var" none [Doc.text "x"]
      = Doc.multilineGroup (Doc.concat [Doc.text "var", Doc.text " ",
          [Doc.text "x"].headD (Doc.text ""),
          Doc.indent 2 (Doc.concat (([Doc.text "x"].drop 1).map
            fun p => Doc.concat [Doc.text ",", Doc.line, p])),
          Doc.text ";"])
    ∧ printVariableDeclaration {} "var" (some "ForStatement") [Doc.text "x"]
      = Doc.multilineGroup (Doc.concat [Doc.text "var", Doc.text " ",
          [Doc.text "x"].headD (Doc.text ""),
          Doc.indent 2 (Doc.concat (([Doc.text "x"].drop 1).map
            fun p => Doc.concat [Doc.text ",", Doc.line, p]))]) :=
  ⟨(variableDeclaration_semicolon {} "var" none [Doc.text "x"]).1 (by decide),
   (variableDeclaration_semicolon {} "var" (some "ForStatement") [Doc.text "x"]).2
     (Or.inl rfl)⟩

/-- C7: a mustache comment whose trimmed text contains neither a
`\x7b\x7b` nor a `\x7d\x7d` sequence renders with the `\x7b\x7b!` /
`\x7d\x7d` delimiters; one containing either sequence renders with
`\x7b\x7b!--` / `--\x7d\x7d`. -/
theorem mustacheComment_delimiters (v : String) :
    ((jsIncludes (jsTrim v) "\x7b\x7b" || jsIncludes (jsTrim v) "\x7d\x7d") = false →
      printPath (HbNode.mustacheCommentStatement v)
        = Except.ok (HbDoc.group (HbDoc.concat [HbDoc.text "\x7b\x7b!", HbDoc.line,
            HbDoc.text (jsTrim v), HbDoc.line, HbDoc.text "\x7d\x7d"])))
    ∧ ((jsIncludes (jsTrim v) "\x7b\x7b" || jsIncludes (jsTrim v) "\x7d\x7d") = true →
      printPath (HbNode.mustacheCommentStatement v)
        = Except.ok (HbDoc.group (HbDoc.concat [HbDoc.text "\x7b\x7b!--", HbDoc.line,
            HbDoc.text (jsTrim v), HbDoc.line, HbDoc.text "--\x7d\x7d"]))) := by
  constructor
  · intro h
    rw [Bool.or_eq_false_iff] at h
    simp [printPath, h.1, h.2, exceptPure_eq_ok]
  · intro h
    rcases Bool.or_eq_true_iff.mp h with h1 | h1 <;>
      simp [printPath, h1, exceptPure_eq_ok]

/-- Witness for C7: a brace-free comment and a brace-holding comment. -/
theorem mustacheComment_delimiters_witness :
    ((jsIncludes (jsTrim " hi ") "\x7b\x7b" || jsIncludes (jsTrim " hi ") "\x7d\x7d") = false
      ∧ printPath (HbNode.mustacheCommentStatement " hi ")
        = Except.ok (HbDoc.group (HbDoc.concat [HbDoc.text "\x7b\x7b!", HbDoc.line,
            HbDoc.text (jsTrim " hi "), HbDoc.line, HbDoc.text "\x7d\x7d"])))
    ∧ ((jsIncludes (jsTrim "a\x7b\x7bb") "\x7b\x7b"
          || jsIncludes (jsTrim "a\x7b\x7bb") "\x7d\x7d") = true
      ∧ printPath (HbNode.mustacheCommentStatement "a\x7b\x7bb")
        = Except.ok (HbDoc.group (HbDoc.concat [HbDoc.text "\x7b\x7b!--", HbDoc.line,
            HbDoc.text (jsTrim "a\x7b\x7bb"), HbDoc.line, HbDoc.text "--\x7d\x7d"]))) :=
  ⟨⟨by decide, (mustacheComment_delimiters " hi ").1 (by decide)⟩,
   ⟨by decide, (mustacheComment_delimiters "a\x7b\x7bb").2 (by decide)⟩⟩

/-- C3 counterexample: a void-tag element (`br`) that has a child
recorded renders with an explicit `</` closing-tag token — not in the
self-closing form — so void elements do not self-close regardless of
recorded children. -/
theorem voidTag_with_children_closing_tag :
    voidTags.contains "br" = true
    ∧ Except.map (hbDocHasText "</")
        (printPath (HbNode.elementNode "br" "br" [] [HbNode.textNode "x" 0 0 0 1]))
      = Except.ok true := by
  refine ⟨by decide, ?_⟩
  have hx : collapseAndTrim "x" = "x" := by decide
  simp [printPath, printPathList, printAttributes, hbJoin, hx, hbDocHasText,
    exceptPure_eq_ok, exceptBind_ok, exceptMap_ok]

/-- C3 amended: an element whose `name` is one of the void tags renders
in the bare-`>` self-closing form exactly when it has no children
recorded (a hardline standing in for the closing-tag path); an element
with children recorded — void-tagged or not — renders with an explicit
`</tag>` closing tag. -/
theorem voidElement_selfClose_iff_no_children
    (name tag : String) (attributes : List HbNode) (attrDocs : List HbDoc)
    (hvoid : name ∈ voidTags)
    (hattrs : printPathList attributes = Except.ok attrDocs) :
    printPath (HbNode.elementNode name tag attributes [])
      = Except.ok (HbDoc.group (HbDoc.concat [
          HbDoc.text "<", HbDoc.text tag, printAttributes attrDocs,
          HbDoc.text ">", HbDoc.indent (HbDoc.concat []), HbDoc.hardline]))
    ∧ (∀ children childDocs, children ≠ [] →
        printPathList children = Except.ok childDocs →
        printPath (HbNode.elementNode name tag attributes children)
          = Except.ok (HbDoc.group (HbDoc.concat [
              HbDoc.text "<", HbDoc.text tag, printAttributes attrDocs,
              HbDoc.text ">", HbDoc.indent (HbDoc.concat childDocs),
              HbDoc.concat [HbDoc.softline, HbDoc.text "</", HbDoc.text tag,
                HbDoc.text ">"]]))) := by
  constructor
  · simp [printPath, printPathList, hattrs, hvoid, exceptPure_eq_ok, exceptBind_ok]
  · intro children childDocs hne hch
    simp [printPath, hattrs, hch, hne, exceptPure_eq_ok, exceptBind_ok]

/-- Witness for the amended C3 theorem at a childless `br` element. -/
theorem voidElement_selfClose_iff_no_children_witness :
    "br" ∈ voidTags
    ∧ printPath (HbNode.elementNode "br" "br" [] [])
      = Except.ok (HbDoc.group (HbDoc.concat [
          HbDoc.text "<", HbDoc.text "br", printAttributes [],
          HbDoc.text ">", HbDoc.indent (HbDoc.concat []), HbDoc.hardline])) :=
  ⟨by decide,
   (voidElement_selfClose_iff_no_children "br" "br" [] [] (by decide)
     (by simp [printPathList, exceptPure_eq_ok])).1⟩

/-- C4: a node kind with no rule in either dispatch table is a fatal
translation error: the JavaScript translator's `switch` falls to its
`default` and throws `unknown type`, and the handlebars translator
throws `unsupported handlebars type`; in both translators the error
value carries no document, so the print produces no output. -/
theorem unsupportedKind_fatal (t : String)
    (hp : t ∉ jsPrintableTypes)
    (hu : t ∉ jsUnprintableTypes)
    (_hh : t ∉ hbHandledTypes) :
    genericPrintNoParensDispatch t
      = Except.error ("unknown type: " ++ String.mk (jsonStringify t.data))
    ∧ printPath (HbNode.otherNode t)
      = Except.error ("unsupported handlebars type: " ++ t) := by
  constructor
  · simp [genericPrintNoParensDispatch, hp, hu]
  · simp [printPath]

/-- Witness for C4 at the rule-less kind `ComprehensionBlock`. -/
theorem unsupportedKind_fatal_witness :
    ("ComprehensionBlock" ∉ jsPrintableTypes
      ∧ "ComprehensionBlock" ∉ jsUnprintableTypes
      ∧ "ComprehensionBlock" ∉ hbHandledTypes)
    ∧ (genericPrintNoParensDispatch "ComprehensionBlock"
        = Except.error ("unknown type: "
            ++ String.mk (jsonStringify "ComprehensionBlock".data))
      ∧ printPath (HbNode.otherNode "ComprehensionBlock")
        = Except.error ("unsupported handlebars type: " ++ "ComprehensionBlock")) :=
  ⟨⟨by decide, by decide, by decide⟩,
   unsupportedKind_fatal "ComprehensionBlock" (by decide) (by decide) (by decide)⟩


lemma exceptIsOk_bind_false {a b : Type} (e : Except String a)
    (f : a → Except String b) (h : exceptIsOk e = false) :
    exceptIsOk (e >>= f) = false := by
  cases e with
  | ok x => simp [exceptIsOk] at h
  | error msg => rfl

lemma chainFrom_nil (i : Nat) : chainFrom i [] = [] := by
  simp [chainFrom, commaChain, commaTail]

lemma chainFrom_cons_zero (d : Doc) (docs : List Doc) :
    chainFrom 0 (d :: docs) = d :: commaTail docs := by
  simp [chainFrom, commaChain, commaTail]

lemma chainFrom_cons_pos (i : Nat) (hi : 0 < i) (d : Doc) (docs : List Doc) :
    chainFrom i (d :: docs) = Doc.text ", " :: d :: commaTail docs := by
  simp [chainFrom, commaChain, commaTail, Nat.pos_iff_ne_zero.mp hi]

lemma commaTail_cons (d : Doc) (docs : List Doc) :
    commaTail (d :: docs) = Doc.text ", " :: d :: commaTail docs := by
  simp [commaTail]

/-- The specifier loop fails whenever a default/namespace specifier is
reached after a named one (or, with the flag already set, anywhere). -/
lemma importSpecLoop_error (options : Options) :
    ∀ (specs : List ImportSpec) (i : Nat) (found : Bool) (parts : List Doc),
      (hasNamedBeforeDefault specs = true
        ∨ (found = true ∧ specs.any (fun r => isDefaultOrNamespace r.kind) = true)) →
      exceptIsOk (importSpecLoop options specs i found parts) = false := by
  intro specs
  induction specs with
  | nil =>
    intro i found parts h
    rcases h with h | ⟨_, hany⟩
    · simp [hasNamedBeforeDefault] at h
    · simp at hany
  | cons s rest ih =>
    intro i found parts h
    cases hk : s.kind with
    | defaultSpecifier =>
      cases hf : found with
      | true => simp [importSpecLoop, hk, hf, exceptIsOk]
      | false =>
        rcases h with hn | ⟨hf1, _⟩
        · simp only [hasNamedBeforeDefault, hk] at hn
          simp [importSpecLoop, hk, hf]
          exact ih (i + 1) false _ (Or.inl hn)
        · rw [hf] at hf1; exact absurd hf1 (by decide)
    | namespaceSpecifier =>
      cases hf : found with
      | true => simp [importSpecLoop, hk, hf, exceptIsOk]
      | false =>
        rcases h with hn | ⟨hf1, _⟩
        · simp only [hasNamedBeforeDefault, hk] at hn
          simp [importSpecLoop, hk, hf]
          exact ih (i + 1) false _ (Or.inl hn)
        · rw [hf] at hf1; exact absurd hf1 (by decide)
    | namedSpecifier =>
      have hnext : rest.any (fun r => isDefaultOrNamespace r.kind) = true
          ∨ hasNamedBeforeDefault rest = true := by
        rcases h with hn | ⟨_, hany⟩
        · simp only [hasNamedBeforeDefault, hk, Bool.or_eq_true] at hn
          exact hn
        · simp only [List.any_cons, hk, isDefaultOrNamespace, Bool.false_or] at hany
          exact Or.inl hany
      have harg : hasNamedBeforeDefault rest = true
          ∨ (true = true ∧ rest.any (fun r => isDefaultOrNamespace r.kind) = true) := by
        rcases hnext with ha | hb
        · exact Or.inr ⟨rfl, ha⟩
        · exact Or.inl hb
      cases hf : found with
      | true =>
        simp [importSpecLoop, hk, hf]
        exact ih (i + 1) true _ harg
      | false =>
        simp [importSpecLoop, hk, hf]
        exact ih (i + 1) true _ harg
    | otherSpecifier t =>
      simp [importSpecLoop, hk, exceptIsOk]

/-- Processing a block of default/namespace specifiers with the flag
down appends their comma chain and leaves the flag down. -/
lemma importSpecLoop_defaults_append (options : Options) :
    ∀ (defs rest : List ImportSpec) (i : Nat) (parts : List Doc),
      (∀ s ∈ defs, isDefaultOrNamespace s.kind = true) →
      importSpecLoop options (defs ++ rest) i false parts
        = importSpecLoop options rest (i + defs.length) false
            (parts ++ chainFrom i (defs.map ImportSpec.doc)) := by
  intro defs
  induction defs with
  | nil =>
    intro rest i parts _
    simp [chainFrom_nil]
  | cons s defs ih =>
    intro rest i parts h
    have hs := h s (List.mem_cons_self s defs)
    have hdefs : ∀ x ∈ defs, isDefaultOrNamespace x.kind = true :=
      fun x hx => h x (List.mem_cons_of_mem s hx)
    have hstep : importSpecLoop options ((s :: defs) ++ rest) i false parts
        = importSpecLoop options (defs ++ rest) (i + 1) false
            ((if 0 < i then parts ++ [Doc.text ", "] else parts) ++ [s.doc]) := by
      cases hk : s.kind with
      | defaultSpecifier =>
        simp only [List.cons_append, importSpecLoop, hk]
        rcases Nat.eq_zero_or_pos i with hi | hi <;> simp [hi]
      | namespaceSpecifier =>
        simp only [List.cons_append, importSpecLoop, hk]
        rcases Nat.eq_zero_or_pos i with hi | hi <;> simp [hi]
      | namedSpecifier => rw [hk] at hs; exact absurd hs (by decide)
      | otherSpecifier t => rw [hk] at hs; simp [isDefaultOrNamespace] at hs
    rw [hstep, ih rest (i + 1) _ hdefs]
    have hlen : i + 1 + defs.length = i + (s :: defs).length := by
      simp [List.length_cons]; omega
    rw [hlen]
    congr 1
    rcases Nat.eq_zero_or_pos i with hi | hi
    · subst hi
      rw [List.map_cons, chainFrom_cons_zero]
      have h1 : ¬ ((0 : Nat) + 1 = 0) := by omega
      simp [chainFrom, h1]
    · rw [List.map_cons, chainFrom_cons_pos i hi]
      have h1 : ¬ (i + 1 = 0) := by omega
      simp [chainFrom, h1, hi, List.append_assoc]

/-- Processing named specifiers with the flag already up appends their
comma tail (every one is preceded by a separator). -/
lemma importSpecLoop_named_found (options : Options) :
    ∀ (nameds : List ImportSpec) (i : Nat) (parts : List Doc),
      (∀ s ∈ nameds, s.kind = ImportSpecifierKind.namedSpecifier) →
      importSpecLoop options nameds (i + 1) true parts
        = Except.ok (true, parts ++ commaTail (nameds.map ImportSpec.doc)) := by
  intro nameds
  induction nameds with
  | nil => intro i parts _; simp [importSpecLoop, commaTail]
  | cons s rest ih =>
    intro i parts h
    have hs := h s (List.mem_cons_self s rest)
    have hrest : ∀ x ∈ rest, x.kind = ImportSpecifierKind.namedSpecifier :=
      fun x hx => h x (List.mem_cons_of_mem s hx)
    have hpos : 0 < i + 1 := Nat.succ_pos i
    simp only [importSpecLoop, hs]
    rw [if_pos hpos]
    simp only [if_true]
    rw [ih (i + 1) (parts ++ [Doc.text ", "] ++ [s.doc]) hrest]
    rw [List.map_cons, commaTail_cons]
    simp [List.append_assoc]

/-- Processing a nonempty all-named block with the flag down opens the
brace before the first named specifier and sets the flag. -/
lemma importSpecLoop_nameds (options : Options) :
    ∀ (nameds : List ImportSpec) (i : Nat) (parts : List Doc),
      nameds ≠ [] →
      (∀ s ∈ nameds, s.kind = ImportSpecifierKind.namedSpecifier) →
      importSpecLoop options nameds i false parts
        = Except.ok (true, parts ++ (if 0 < i then [Doc.text ", "] else [])
            ++ [Doc.text (if options.objectCurlySpacing then "\x7b " else "\x7b")]
            ++ commaChain (nameds.map ImportSpec.doc)) := by
  intro nameds i parts hne h
  match nameds with
  | [] => exact absurd rfl hne
  | n :: rest =>
    have hn := h n (List.mem_cons_self n rest)
    have hrest : ∀ x ∈ rest, x.kind = ImportSpecifierKind.namedSpecifier :=
      fun x hx => h x (List.mem_cons_of_mem n hx)
    have hchain : commaChain ((n :: rest).map ImportSpec.doc)
        = n.doc :: commaTail (rest.map ImportSpec.doc) := by
      simp [commaChain, commaTail]
    rcases Nat.eq_zero_or_pos i with hi | hi
    · subst hi
      simp only [importSpecLoop, hn]
      rw [if_neg (by omega : ¬ (0 : Nat) > 0)]
      simp only [Bool.false_eq_true, ite_false]
      rw [show (0 : Nat) = 0 + 0 from rfl] at *
      rw [importSpecLoop_named_found options rest 0 _ hrest]
      rw [hchain]
      simp [List.append_assoc]
    · obtain ⟨j, rfl⟩ : ∃ j, i = j + 1 := ⟨i - 1, by omega⟩
      simp only [importSpecLoop, hn]
      rw [if_pos (by omega : j + 1 > 0)]
      simp only [Bool.false_eq_true, ite_false]
      rw [importSpecLoop_named_found options rest (j + 1) _ hrest]
      rw [hchain]
      simp [hi, List.append_assoc]


lemma chainFrom_zero (docs : List Doc) : chainFrom 0 docs = commaChain docs := by
  simp [chainFrom]

/-- C9: an import declaration whose specifier list holds a default or
namespace specifier somewhere after a named specifier aborts with the
`foundImportSpecifier` assertion (no document is produced); conversely,
when every default/namespace specifier precedes all named specifiers,
printing succeeds and the named specifiers are wrapped in exactly one
brace pair after the defaults. -/
theorem importDeclaration_specifier_order :
    (∀ (options : Options) (importKind : Option String)
        (specifiers : List ImportSpec) (sourceDoc : Doc),
      hasNamedBeforeDefault specifiers = true →
      exceptIsOk (printImportDeclaration options importKind specifiers sourceDoc)
        = false)
    ∧ (∀ (options : Options) (importKind : Option String)
        (defs nameds : List ImportSpec) (sourceDoc : Doc),
      (∀ s ∈ defs, isDefaultOrNamespace s.kind = true) →
      (∀ s ∈ nameds, s.kind = ImportSpecifierKind.namedSpecifier) →
      printImportDeclaration options importKind (defs ++ nameds) sourceDoc
        = Except.ok (importDeclExpected options importKind
            (defs.map ImportSpec.doc) (nameds.map ImportSpec.doc) sourceDoc)) := by
  constructor
  · intro options importKind specifiers sourceDoc h
    have hne : specifiers ≠ [] := by
      intro he
      rw [he] at h
      simp [hasNamedBeforeDefault] at h
    have hlen : 0 < specifiers.length := List.length_pos.mpr hne
    simp only [printImportDeclaration]
    rw [if_pos hlen]
    exact exceptIsOk_bind_false _ _
      (importSpecLoop_error options specifiers 0 false _ (Or.inl h))
  · intro options importKind defs nameds sourceDoc hdefs hnameds
    by_cases hne : nameds = []
    · subst hne
      rw [List.append_nil]
      by_cases hd : defs = []
      · subst hd
        simp only [printImportDeclaration, importDeclExpected]
        rw [if_neg (by simp)]
        cases importKind with
        | none => simp [exceptPure_eq_ok]
        | some k =>
          by_cases hck : ¬k = "" ∧ ¬k = "value" <;> simp [hck, exceptPure_eq_ok]
      · have hlen : 0 < defs.length := List.length_pos.mpr hd
        have hrun : ∀ parts : List Doc, importSpecLoop options defs 0 false parts
            = Except.ok (false, parts ++ chainFrom 0 (defs.map ImportSpec.doc)) := by
          intro parts
          have h0 := importSpecLoop_defaults_append options defs [] 0 parts hdefs
          simpa [importSpecLoop] using h0
        simp only [printImportDeclaration, importDeclExpected]
        rw [if_pos hlen, hrun]
        have hmap : (defs.map ImportSpec.doc).isEmpty = false := by
          simp [List.isEmpty_iff, hd]
        simp [exceptBind_ok, exceptPure_eq_ok, chainFrom_zero, hmap,
          List.append_assoc]
        cases importKind with
        | none => simp
        | some k => by_cases hck : ¬k = "" ∧ ¬k = "value" <;> simp [hck]
    · have hlenn : 0 < nameds.length := List.length_pos.mpr hne
      have hlen : 0 < (defs ++ nameds).length := by
        simp [List.length_append]; omega
      have hrun : ∀ parts : List Doc,
          importSpecLoop options (defs ++ nameds) 0 false parts
            = Except.ok (true, parts ++ commaChain (defs.map ImportSpec.doc)
                ++ (if 0 < defs.length then [Doc.text ", "] else [])
                ++ [Doc.text (if options.objectCurlySpacing then "\x7b " else "\x7b")]
                ++ commaChain (nameds.map ImportSpec.doc)) := by
        intro parts
        rw [importSpecLoop_defaults_append options defs nameds 0 parts hdefs]
        rw [importSpecLoop_nameds options nameds (0 + defs.length) _ hne hnameds]
        rw [chainFrom_zero]
        simp only [Nat.zero_add]
      have hmapn : (nameds.map ImportSpec.doc).isEmpty = false := by
        simp [List.isEmpty_iff, hne]
      have hcomma : (if 0 < defs.length then [Doc.text ", "] else [])
          = (if (defs.map ImportSpec.doc).isEmpty then [] else [Doc.text ", "]) := by
        cases defs <;> simp
      simp only [printImportDeclaration, importDeclExpected]
      rw [if_pos hlen, hrun]
      simp [exceptBind_ok, exceptPure_eq_ok, hmapn, hcomma,
        List.append_assoc]
      cases importKind with
      | none => simp
      | some k => by_cases hck : ¬k = "" ∧ ¬k = "value" <;> simp [hck]


/-- Witness for C9: `import b, a from "m"`-style order (named before
default) aborts; `import d, \x7ba\x7d from "m"`-style order succeeds with
one brace pair. -/
theorem importDeclaration_specifier_order_witness :
    exceptIsOk (printImportDeclaration {} none
        [{ kind := ImportSpecifierKind.namedSpecifier, doc := Doc.text "b" },
         { kind := ImportSpecifierKind.defaultSpecifier, doc := Doc.text "a" }]
        (Doc.text "m")) = false
    ∧ printImportDeclaration {} none
        ([{ kind := ImportSpecifierKind.defaultSpecifier, doc := Doc.text "d" }]
          ++ [{ kind := ImportSpecifierKind.namedSpecifier, doc := Doc.text "a" }])
        (Doc.text "m")
      = Except.ok (importDeclExpected {} none
          ([{ kind := ImportSpecifierKind.defaultSpecifier, doc := Doc.text "d" }].map
            ImportSpec.doc)
          ([{ kind := ImportSpecifierKind.namedSpecifier, doc := Doc.text "a" }].map
            ImportSpec.doc)
          (Doc.text "m")) :=
  ⟨importDeclaration_specifier_order.1 {} none _ _ (by decide),
   importDeclaration_specifier_order.2 {} none _ _ _ (by decide) (by decide)⟩

end Prettier
